import Mathlib

/-!
Shallow embedding of the `gocache` package (`src/gocache/gocache.go`), an
in-process key-value cache with per-entry TTL expiration, a background
sweep loop and gob-based persistence.

Modelling conventions:
* Go's `time.Duration` and `UnixNano` timestamps are `Int` (nanoseconds).
* Every operation that reads the wall clock (`time.Now()`) takes that
  clock reading as an explicit `now : Int` parameter.
* The Go map `map[string]Item` is an association list with unique keys;
  `lookup` finds the first binding, `insert` overwrites in place.
* Go methods that mutate the receiver return the new `Cache` state; a
  method returning an `error` returns it as `Option GoError` alongside
  the state (Go's `fmt.Errorf` messages become tagged constructors).
* The gob decode step inside `Load` is external I/O, so `Load` takes the
  decode outcome (a failure message, or the decoded mapping as a list)
  as a parameter.
-/

namespace Gocache

/-- Item is where the cache data item is stored: a payload together with
an absolute expiration timestamp in nanoseconds (`0` = no expiration). -/
structure Item (α : Type) where
  Object : α
  Expiration : Int
  deriving Repr, DecidableEq

/-- NoExpiration is for an item without expiration time (`-1`). -/
def NoExpiration : Int := -1

/-- DefaultExpiration is for the default expiration time (`0`). -/
def DefaultExpiration : Int := 0

/-- Expired returns true if the item has expired: the sentinel `0` never
expires, otherwise the item is expired when `now > Expiration`
(`time.Now().UnixNano() > item.Expiration` in the source). -/
def Item.Expired (item : Item α) (now : Int) : Bool :=
  if item.Expiration = 0 then false
  else decide (item.Expiration < now)

/-- Cache is the cache entity: configured default TTL, GC interval, and
the entry mapping (the mutex is a concurrency artefact, not modelled). -/
structure Cache (α : Type) where
  defaultExpiration : Int
  gcInterval : Int
  items : List (String × Item α)
  deriving Repr

/-- Lookup in the association list modelling the Go map. -/
def lookup (m : List (String × Item α)) (k : String) : Option (Item α) :=
  match m with
  | [] => none
  | (k', it) :: rest => if k' = k then some it else lookup rest k

/-- Map assignment `m[k] = v`: overwrite the binding if present,
otherwise append a fresh one. -/
def insert (m : List (String × Item α)) (k : String) (v : Item α) :
    List (String × Item α) :=
  match m with
  | [] => [(k, v)]
  | (k', v') :: rest =>
    if k' = k then (k, v) :: rest else (k', v') :: insert rest k v

/-- Map deletion `delete(m, k)`: remove the binding for `k` if present. -/
def eraseKey (m : List (String × Item α)) (k : String) :
    List (String × Item α) :=
  match m with
  | [] => []
  | (k', v') :: rest =>
    if k' = k then rest else (k', v') :: eraseKey rest k

/-- Tagged rendering of the `error` values the cache produces
(`fmt.Errorf` messages in the source). -/
inductive GoError where
  | itemAlreadyExists (k : String)
  | itemDoesNotExist (k : String)
  | decodeFailed (msg : String)
  deriving Repr, DecidableEq

/-- The `del` helper: `delete(c.items, k)`. -/
def Cache.del (c : Cache α) (k : String) : Cache α :=
  { c with items := eraseKey c.items k }

/-- The removal condition of `DeleteExpired`:
`v.Expiration > 0 && now > v.Expiration`. -/
def sweepRemoves (it : Item α) (now : Int) : Bool :=
  decide (0 < it.Expiration) && decide (it.Expiration < now)

/-- DeleteExpired deletes the expired items: every entry with
`v.Expiration > 0 && now > v.Expiration` is removed from the map. -/
def Cache.DeleteExpired (c : Cache α) (now : Int) : Cache α :=
  { c with items := c.items.filter (fun kv => ! sweepRemoves kv.2 now) }

/-- The unexported `set`: resolve the TTL (`DefaultExpiration` is replaced
by the configured default; only a strictly positive duration produces a
finite expiration `now + d`) and unconditionally overwrite the entry. -/
def Cache.set (c : Cache α) (k : String) (v : α) (d now : Int) : Cache α :=
  let d' := if d = DefaultExpiration then c.defaultExpiration else d
  let e : Int := if 0 < d' then now + d' else 0
  { c with items := insert c.items k ⟨v, e⟩ }

/-- Set sets an item whether it exists; its body is textually identical
to the unexported `set` apart from taking the mutex. -/
def Cache.Set (c : Cache α) (k : String) (v : α) (d now : Int) : Cache α :=
  c.set k v d now

/-- The unexported `get`: the item and `true` if the key exists and the
entry is not expired, `(nil, false)` otherwise. -/
def Cache.get (c : Cache α) (k : String) (now : Int) : Option α × Bool :=
  match lookup c.items k with
  | none => (none, false)
  | some item =>
    if item.Expired now then (none, false) else (some item.Object, true)

/-- Get returns the item and true if the key exists; the receiver state
is threaded explicitly to express that the read mutates nothing. -/
def Cache.Get (c : Cache α) (k : String) (now : Int) :
    (Option α × Bool) × Cache α :=
  match lookup c.items k with
  | none => ((none, false), c)
  | some item =>
    if item.Expired now then ((none, false), c)
    else ((some item.Object, true), c)

/-- Add adds a new item to the cache if it does not exist: if `get`
finds a live entry it fails with the already-exists error and leaves the
state alone, otherwise it stores via `set`. -/
def Cache.Add (c : Cache α) (k : String) (v : α) (d now : Int) :
    Option GoError × Cache α :=
  match c.get k now with
  | (_, true) => (some (.itemAlreadyExists k), c)
  | (_, false) => (none, c.set k v d now)

/-- Replace replaces the existing item with key `k` if it exists: if
`get` finds no live entry it fails with the does-not-exist error and
leaves the state alone, otherwise it stores via `set`. -/
def Cache.Replace (c : Cache α) (k : String) (v : α) (d now : Int) :
    Option GoError × Cache α :=
  match c.get k now with
  | (_, false) => (some (.itemDoesNotExist k), c)
  | (_, true) => (none, c.set k v d now)

/-- Delete deletes the key `k` and its item. -/
def Cache.Delete (c : Cache α) (k : String) : Cache α :=
  c.del k

/-- Count returns the number of items: `len(c.items)`. -/
def Cache.Count (c : Cache α) : Nat :=
  c.items.length

/-- Clear clears all items. -/
def Cache.Clear (c : Cache α) : Cache α :=
  { c with items := [] }

/-- The merge loop of `Load`: for each decoded binding, overwrite the
current entry only when it is absent or expired. -/
def mergeLoad (cur loaded : List (String × Item α)) (now : Int) :
    List (String × Item α) :=
  match loaded with
  | [] => cur
  | (k, v) :: rest =>
    mergeLoad
      (match lookup cur k with
       | none => insert cur k v
       | some ov => if ov.Expired now then insert cur k v else cur)
      rest now

/-- Load reads the cache from a reader: on decode failure it returns the
error with the state untouched; on success it merges the decoded mapping
into the current items. The gob decode outcome is a parameter. -/
def Cache.Load (c : Cache α)
    (decoded : Except String (List (String × Item α))) (now : Int) :
    Option GoError × Cache α :=
  match decoded with
  | .error msg => (some (.decodeFailed msg), c)
  | .ok items => (none, { c with items := mergeLoad c.items items now })

/-- Models Go's `time.NewTicker`, which panics with
"non-positive interval for NewTicker" when its argument is not
strictly positive. -/
def newTicker (d : Int) : Except String Unit :=
  if 0 < d then Except.ok ()
  else Except.error "non-positive interval for NewTicker"

/-- The first step of `gcLoop`: `ticker := time.NewTicker(c.gcInterval)`.
An error means the goroutine panics before any sweep runs. -/
def Cache.gcLoopStart (c : Cache α) : Except String Unit :=
  newTicker c.gcInterval

/-- NewCache creates a new cache; the source then unconditionally spawns
`go c.gcLoop()`, whose startup outcome is `gcLoopStart`. -/
def NewCache (α : Type) (defaultExpiration gcInterval : Int) : Cache α :=
  { defaultExpiration := defaultExpiration
    gcInterval := gcInterval
    items := [] }

/-- Liveness of a lookup result: absent or expired counts as dead. -/
def liveOpt (o : Option (Item α)) (now : Int) : Bool :=
  match o with
  | none => false
  | some it => ! it.Expired now

/- Helper lemmas about the association-list map. -/

theorem lookup_insert_self (m : List (String × Item α)) (k : String)
    (v : Item α) : lookup (insert m k v) k = some v := by
  induction m with
  | nil => simp [insert, lookup]
  | cons hd tl ih =>
    obtain ⟨k', v'⟩ := hd
    by_cases h : k' = k
    · simp [insert, lookup, h]
    · simp [insert, lookup, h, ih]

theorem lookup_insert_ne (m : List (String × Item α)) (k k' : String)
    (v : Item α) (h : k' ≠ k) : lookup (insert m k' v) k = lookup m k := by
  induction m with
  | nil => simp [insert, lookup, h]
  | cons hd tl ih =>
    obtain ⟨k'', v''⟩ := hd
    by_cases h2 : k'' = k'
    · subst h2
      simp [insert, lookup, h]
    · by_cases h3 : k'' = k
      · subst h3
        simp [insert, lookup, h2, Ne.symm h]
      · simp [insert, lookup, h2, h3, ih]

theorem lookup_pos_length (m : List (String × Item α)) (k : String)
    (it : Item α) (h : lookup m k = some it) : 0 < m.length := by
  cases m with
  | nil => simp [lookup] at h
  | cons hd tl => simp

theorem length_eraseKey_of_lookup (m : List (String × Item α))
    (k : String) (it : Item α) (h : lookup m k = some it) :
    (eraseKey m k).length + 1 = m.length := by
  induction m with
  | nil => simp [lookup] at h
  | cons hd tl ih =>
    obtain ⟨k', v'⟩ := hd
    by_cases h2 : k' = k
    · simp [eraseKey, h2]
    · simp only [lookup, if_neg h2] at h
      simp [eraseKey, h2, ih h]

theorem get_eq_liveOpt (c : Cache α) (k : String) (now : Int) :
    (c.get k now).2 = liveOpt (lookup c.items k) now := by
  unfold Cache.get liveOpt
  cases lookup c.items k with
  | none => rfl
  | some it => by_cases h : it.Expired now <;> simp [h]

theorem lookup_filter_kept (m : List (String × Item α)) (k : String)
    (it : Item α) (p : String × Item α → Bool)
    (h : lookup m k = some it) (hit : p (k, it) = true) :
    lookup (m.filter p) k = some it := by
  induction m with
  | nil => simp [lookup] at h
  | cons hd tl ih =>
    obtain ⟨k', v'⟩ := hd
    by_cases h2 : k' = k
    · subst h2
      simp only [lookup, if_pos rfl] at h
      cases h
      simp [List.filter, hit, lookup]
    · simp only [lookup, if_neg h2] at h
      by_cases h3 : p (k', v') = true
      · simp [List.filter, h3, lookup, h2, ih h]
      · simp only [List.filter, Bool.not_eq_true] at h3 ⊢
        rw [h3]
        exact ih h

theorem mergeLoad_cons (cur : List (String × Item α)) (k' : String)
    (v' : Item α) (rest : List (String × Item α)) (now : Int) :
    mergeLoad cur ((k', v') :: rest) now =
      mergeLoad
        (match lookup cur k' with
         | none => insert cur k' v'
         | some ov => if ov.Expired now then insert cur k' v' else cur)
        rest now := rfl

theorem lookup_mergeStep (cur : List (String × Item α)) (k' k : String)
    (v' : Item α) (now : Int) (hk : k' ≠ k) :
    lookup
      (match lookup cur k' with
       | none => insert cur k' v'
       | some ov => if ov.Expired now then insert cur k' v' else cur) k
    = lookup cur k := by
  cases h : lookup cur k' with
  | none => exact lookup_insert_ne cur k k' v' hk
  | some ov =>
    by_cases he : ov.Expired now
    · simp only [he, if_true]
      exact lookup_insert_ne cur k k' v' hk
    · simp only [he, if_false, Bool.false_eq_true]

theorem mergeLoad_lookup_not_mem (l cur : List (String × Item α))
    (now : Int) (k : String) (h : ∀ p ∈ l, p.1 ≠ k) :
    lookup (mergeLoad cur l now) k = lookup cur k := by
  induction l generalizing cur with
  | nil => rfl
  | cons hd tl ih =>
    obtain ⟨k', v'⟩ := hd
    rw [mergeLoad_cons]
    have hk : k' ≠ k := h (k', v') (by simp)
    rw [ih _ fun p hp => h p (by simp [hp])]
    exact lookup_mergeStep cur k' k v' now hk

theorem mergeLoad_lookup (l cur : List (String × Item α)) (now : Int)
    (k : String) (hnd : (l.map Prod.fst).Nodup) :
    lookup (mergeLoad cur l now) k =
      if liveOpt (lookup cur k) now then lookup cur k
      else if (lookup l k).isSome then lookup l k else lookup cur k := by
  induction l generalizing cur with
  | nil =>
    simp [mergeLoad, lookup, liveOpt]
  | cons hd tl ih =>
    obtain ⟨k', v'⟩ := hd
    simp only [List.map_cons, List.nodup_cons] at hnd
    obtain ⟨hk'tl, hndtl⟩ := hnd
    rw [mergeLoad_cons]
    by_cases hk : k' = k
    · subst hk
      have hnot : ∀ p ∈ tl, p.1 ≠ k' := by
        intro p hp heq
        exact hk'tl (heq ▸ List.mem_map_of_mem Prod.fst hp)
      rw [mergeLoad_lookup_not_mem tl _ now k' hnot]
      cases h : lookup cur k' with
      | none =>
        simp [h, liveOpt, lookup_insert_self, lookup]
      | some ov =>
        by_cases he : ov.Expired now
        · simp [h, he, liveOpt, lookup_insert_self, lookup]
        · simp [h, he, liveOpt, lookup]
    · rw [ih _ hndtl]
      rw [lookup_mergeStep cur k' k v' now hk]
      have : lookup ((k', v') :: tl) k = lookup tl k := by
        simp [lookup, hk]
      rw [this]

/-- C1: for every successfully decoded snapshot, `Load` merges it into
the store key by key: a loaded entry overwrites the current entry only
when the current entry is absent or already expired; when a live entry
exists for a key, the loaded entry is discarded and `get` still returns
the live entry's value afterwards. -/
theorem load_merge_per_key (c : Cache α)
    (loaded : List (String × Item α)) (now : Int) (k : String)
    (hnd : (loaded.map Prod.fst).Nodup) :
    (∀ it, lookup c.items k = some it → it.Expired now = false →
      lookup (c.Load (Except.ok loaded) now).2.items k = some it ∧
      (c.Load (Except.ok loaded) now).2.get k now = (some it.Object, true))
    ∧ (∀ v, lookup loaded k = some v →
        (lookup c.items k = none ∨
          ∃ ov, lookup c.items k = some ov ∧ ov.Expired now = true) →
        lookup (c.Load (Except.ok loaded) now).2.items k = some v) := by
  have hitems : (c.Load (Except.ok loaded) now).2.items
      = mergeLoad c.items loaded now := rfl
  constructor
  · intro it hl he
    have hres : lookup (mergeLoad c.items loaded now) k = some it := by
      rw [mergeLoad_lookup loaded c.items now k hnd, hl]
      simp [liveOpt, he, hl]
    refine ⟨by rw [hitems]; exact hres, ?_⟩
    unfold Cache.get
    rw [hitems, hres]
    simp [he]
  · intro v hv hdead
    rw [hitems, mergeLoad_lookup loaded c.items now k hnd]
    have hlive : liveOpt (lookup c.items k) now = false := by
      rcases hdead with h0 | ⟨ov, hov, hexp⟩
      · simp [liveOpt, h0]
      · simp [liveOpt, hov, hexp]
    rw [hlive, hv]
    simp

/-- Witness for C1 at a concrete cache: a live entry `"a" = 1` survives
loading a snapshot that also binds `"a"`. -/
theorem load_merge_per_key_witness :
    lookup (((⟨0, 0, [("a", (⟨1, 0⟩ : Item Nat))]⟩ : Cache Nat).Load
      (Except.ok [("a", ⟨2, 0⟩), ("b", ⟨3, 0⟩)]) 5).2.items) "a"
      = some ⟨1, 0⟩ :=
  ((load_merge_per_key (⟨0, 0, [("a", ⟨1, 0⟩)]⟩ : Cache Nat)
    [("a", ⟨2, 0⟩), ("b", ⟨3, 0⟩)] 5 "a" (by decide)).1
    ⟨1, 0⟩ rfl (by decide)).1

/-- C2: TTL resolution in `set` (shared verbatim by `Set`, and by
`Add`/`Replace` when they store): `DefaultExpiration` is first replaced
by the configured default; after that substitution any duration that is
not strictly positive — including `NoExpiration` and a zero default —
stores the sentinel `Expiration = 0`, which never expires; only a
strictly positive duration stores the finite expiration `now + d`. -/
theorem set_ttl_resolution (c : Cache α) (k : String) (v : α)
    (d now : Int) :
    c.Set k v d now = c.set k v d now
    ∧ ((if d = DefaultExpiration then c.defaultExpiration else d) ≤ 0 →
        lookup (c.set k v d now).items k = some ⟨v, 0⟩)
    ∧ (0 < (if d = DefaultExpiration then c.defaultExpiration else d) →
        lookup (c.set k v d now).items k =
          some ⟨v, now +
            (if d = DefaultExpiration then c.defaultExpiration else d)⟩)
    ∧ (∀ t : Int, (Item.mk v 0).Expired t = false) := by
  refine ⟨rfl, ?_, ?_, ?_⟩
  · intro h
    simp only [Cache.set]
    rw [if_neg (not_lt.mpr h)]
    exact lookup_insert_self c.items k ⟨v, 0⟩
  · intro h
    simp only [Cache.set]
    rw [if_pos h]
    exact lookup_insert_self c.items k _
  · intro t
    simp [Item.Expired]

/-- Witness for C2: setting with the explicit never-expire duration `-1`
stores the sentinel expiration `0`. -/
theorem set_ttl_resolution_witness :
    lookup ((⟨0, 0, []⟩ : Cache Nat).set "a" 1 (-1) 100).items "a"
      = some ⟨1, 0⟩ :=
  (set_ttl_resolution (⟨0, 0, []⟩ : Cache Nat) "a" 1 (-1) 100).2.1
    (by decide)

/-- C3: the spec promises that a `sweepInterval` of `0` disables
background sweeping, but `NewCache` unconditionally spawns `gcLoop`,
whose very first step `time.NewTicker(c.gcInterval)` panics on a
non-positive interval; the claim fails on the code as written. -/
theorem newCache_zero_interval_ticker_fails (d : Int) :
    (NewCache Unit d 0).gcLoopStart =
      Except.error "non-positive interval for NewTicker" := rfl

/-- C4: `Add` fails with the already-exists error exactly when a live
(non-expired) entry for the key is present; on failure the state is
unchanged; otherwise it stores exactly as `set` would. -/
theorem add_already_exists_iff (c : Cache α) (k : String) (v : α)
    (d now : Int) :
    ((c.Add k v d now).1 = some (.itemAlreadyExists k) ↔
      ∃ it, lookup c.items k = some it ∧ it.Expired now = false)
    ∧ ((∃ it, lookup c.items k = some it ∧ it.Expired now = false) →
        (c.Add k v d now).2 = c)
    ∧ ((¬ ∃ it, lookup c.items k = some it ∧ it.Expired now = false) →
        c.Add k v d now = (none, c.set k v d now)) := by
  cases hl : lookup c.items k with
  | none =>
    refine ⟨?_, ?_, ?_⟩
    · simp [Cache.Add, Cache.get, hl]
    · rintro ⟨it, hit, -⟩
      cases hit
    · intro _
      simp [Cache.Add, Cache.get, hl]
  | some it =>
    by_cases he : it.Expired now = true
    · refine ⟨?_, ?_, ?_⟩
      · simp [Cache.Add, Cache.get, hl, he]
      · rintro ⟨it', hit', hlive⟩
        cases hit'
        simp [he] at hlive
      · intro _
        simp [Cache.Add, Cache.get, hl, he]
    · rw [Bool.not_eq_true] at he
      refine ⟨?_, ?_, ?_⟩
      · simp [Cache.Add, Cache.get, hl, he]
      · intro _
        simp [Cache.Add, Cache.get, hl, he]
      · intro hno
        exact absurd ⟨it, rfl, he⟩ hno

/-- Witness for C4: adding over a live entry leaves the state alone. -/
theorem add_already_exists_iff_witness :
    ((⟨0, 0, [("a", (⟨7, 0⟩ : Item Nat))]⟩ : Cache Nat).Add "a" 9 0 5).2
      = ⟨0, 0, [("a", ⟨7, 0⟩)]⟩ :=
  (add_already_exists_iff (⟨0, 0, [("a", ⟨7, 0⟩)]⟩ : Cache Nat)
    "a" 9 0 5).2.1 ⟨⟨7, 0⟩, rfl, by decide⟩

/-- C5: `Replace` fails with the does-not-exist error exactly when no
live entry for the key is present (absent or expired); on failure the
state is unchanged and `get` still reports not-found; otherwise it
stores exactly as `set` would. -/
theorem replace_not_found_iff (c : Cache α) (k : String) (v : α)
    (d now : Int) :
    ((c.Replace k v d now).1 = some (.itemDoesNotExist k) ↔
      ¬ ∃ it, lookup c.items k = some it ∧ it.Expired now = false)
    ∧ ((¬ ∃ it, lookup c.items k = some it ∧ it.Expired now = false) →
        (c.Replace k v d now).2 = c ∧ c.get k now = (none, false))
    ∧ ((∃ it, lookup c.items k = some it ∧ it.Expired now = false) →
        c.Replace k v d now = (none, c.set k v d now)) := by
  cases hl : lookup c.items k with
  | none =>
    refine ⟨?_, ?_, ?_⟩
    · simp [Cache.Replace, Cache.get, hl]
    · intro _
      simp [Cache.Replace, Cache.get, hl]
    · rintro ⟨it, hit, -⟩
      cases hit
  | some it =>
    by_cases he : it.Expired now = true
    · refine ⟨?_, ?_, ?_⟩
      · simp only [Cache.Replace, Cache.get, hl, he, if_true]
        constructor
        · rintro - ⟨it', hit', hlive⟩
          cases hit'
          simp [he] at hlive
        · intro _
          trivial
      · intro _
        simp [Cache.Replace, Cache.get, hl, he]
      · rintro ⟨it', hit', hlive⟩
        cases hit'
        simp [he] at hlive
    · rw [Bool.not_eq_true] at he
      refine ⟨?_, ?_, ?_⟩
      · simp only [Cache.Replace, Cache.get, hl, he]
        simp only [Bool.false_eq_true, if_false]
        constructor
        · intro habs
          cases habs
        · intro hno
          exact absurd ⟨it, rfl, he⟩ hno
      · intro hno
        exact absurd ⟨it, rfl, he⟩ hno
      · intro _
        simp [Cache.Replace, Cache.get, hl, he]

/-- Witness for C5: replacing an absent key fails and `get` reports
not-found on the untouched state. -/
theorem replace_not_found_iff_witness :
    ((⟨0, 0, []⟩ : Cache Nat).Replace "a" 9 0 5).2 = ⟨0, 0, []⟩
    ∧ (⟨0, 0, []⟩ : Cache Nat).get "a" 5 = (none, false) :=
  (replace_not_found_iff (⟨0, 0, []⟩ : Cache Nat) "a" 9 0 5).2.1
    (by rintro ⟨it, hit, -⟩; cases hit)

/-- C6: when decoding the input stream fails, `Load` returns the decode
error and the entry mapping is entirely unmodified. -/
theorem load_decode_failure_unmodified (c : Cache α) (msg : String)
    (now : Int) :
    c.Load (Except.error msg) now = (some (.decodeFailed msg), c)
    ∧ (c.Load (Except.error msg) now).2.items = c.items :=
  ⟨rfl, rfl⟩

/-- C7: the expiration check is a pure function of the timestamp pair:
an item is expired exactly when its expiration is not the sentinel `0`
and `now` is strictly past it; an item expiring exactly at `now` is not
yet expired, and a sentinel item is never expired. -/
theorem expired_iff_nonsentinel_and_past (v : α) (e now : Int) :
    ((Item.mk v e).Expired now = true ↔ e ≠ 0 ∧ e < now)
    ∧ (Item.mk v e).Expired e = false
    ∧ (∀ n : Int, (Item.mk v 0).Expired n = false) := by
  refine ⟨?_, ?_, ?_⟩
  · by_cases h : e = 0
    · simp [Item.Expired, h]
    · simp [Item.Expired, h]
  · simp [Item.Expired]
  · intro n
    simp [Item.Expired]

/-- C8: `Get` returns `(none, false)` when the key is absent or the
entry is expired and the stored value with `true` otherwise, and in all
cases the cache state — including expired-but-present entries — is
returned unchanged. -/
theorem get_semantics_and_frame (c : Cache α) (k : String) (now : Int) :
    (c.Get k now).2 = c
    ∧ (lookup c.items k = none → (c.Get k now).1 = (none, false))
    ∧ (∀ it, lookup c.items k = some it →
        (it.Expired now = true → (c.Get k now).1 = (none, false))
        ∧ (it.Expired now = false →
            (c.Get k now).1 = (some it.Object, true))) := by
  refine ⟨?_, ?_, ?_⟩
  · unfold Cache.Get
    cases lookup c.items k with
    | none => rfl
    | some it =>
      by_cases he : it.Expired now = true
      · simp [he]
      · rw [Bool.not_eq_true] at he
        simp [he]
  · intro h
    simp [Cache.Get, h]
  · intro it h
    constructor
    · intro he
      simp [Cache.Get, h, he]
    · intro he
      simp [Cache.Get, h, he]

/-- Witness for C8: reading an expired-but-present entry reports
not-found while the state is untouched. -/
theorem get_semantics_and_frame_witness :
    ((⟨0, 0, [("a", (⟨7, 5⟩ : Item Nat))]⟩ : Cache Nat).Get "a" 10).1
      = (none, false) :=
  ((get_semantics_and_frame (⟨0, 0, [("a", ⟨7, 5⟩)]⟩ : Cache Nat)
    "a" 10).2.2 ⟨7, 5⟩ rfl).1 (by decide)

/-- C9: `Count` is the stored count, not the live count: it is the size
of the entry mapping, and an expired-but-present entry is included in it
even though `get` reports it not-found. -/
theorem count_includes_expired (c : Cache α) (k : String) (it : Item α)
    (now : Int) (hl : lookup c.items k = some it)
    (hexp : it.Expired now = true) :
    c.Count = c.items.length
    ∧ c.get k now = (none, false)
    ∧ (c.del k).Count + 1 = c.Count := by
  refine ⟨rfl, ?_, ?_⟩
  · unfold Cache.get
    rw [hl]
    simp [hexp]
  · simpa [Cache.del, Cache.Count] using
      length_eraseKey_of_lookup c.items k it hl

/-- Witness for C9 at a concrete cache holding one expired entry. -/
theorem count_includes_expired_witness :
    (⟨0, 0, [("a", (⟨7, 5⟩ : Item Nat))]⟩ : Cache Nat).get "a" 10
      = (none, false) :=
  (count_includes_expired (⟨0, 0, [("a", ⟨7, 5⟩)]⟩ : Cache Nat)
    "a" ⟨7, 5⟩ 10 rfl (by decide)).2.1

/-- C10: `Expired` and the sweep's removal condition disagree on
strictly negative expirations: such an entry is reported not-found by
`get`, yet `DeleteExpired` keeps it in the map where `Count` still
counts it; and `set` can never produce a negative expiration (with a
non-negative clock), so only `Load` can introduce one. -/
theorem negative_expiration_get_sweep_disagree (c : Cache α)
    (k : String) (it : Item α) (now : Int)
    (hl : lookup c.items k = some it) (hneg : it.Expiration < 0)
    (hnow : 0 ≤ now) :
    c.get k now = (none, false)
    ∧ lookup (c.DeleteExpired now).items k = some it
    ∧ 0 < (c.DeleteExpired now).Count
    ∧ (∀ (v : α) (d t : Int), 0 ≤ t →
        ∃ e, lookup (c.set k v d t).items k = some ⟨v, e⟩ ∧ 0 ≤ e) := by
  have hexp : it.Expired now = true := by
    unfold Item.Expired
    rw [if_neg (by omega : ¬ it.Expiration = 0)]
    simp only [decide_eq_true_eq]
    omega
  have hkeep : (fun kv : String × Item α => ! sweepRemoves kv.2 now)
      (k, it) = true := by
    simp only [sweepRemoves, Bool.not_eq_true']
    simp only [Bool.and_eq_false_iff, decide_eq_false_iff_not, not_lt]
    left
    omega
  have hkept : lookup ((c.DeleteExpired now).items) k = some it :=
    lookup_filter_kept c.items k it _ hl hkeep
  refine ⟨?_, hkept, ?_, ?_⟩
  · unfold Cache.get
    rw [hl]
    simp [hexp]
  · exact lookup_pos_length _ k it hkept
  · intro v d t ht
    refine ⟨if 0 < (if d = DefaultExpiration then c.defaultExpiration
        else d) then t + (if d = DefaultExpiration then
        c.defaultExpiration else d) else 0, ?_, ?_⟩
    · simp only [Cache.set]
      exact lookup_insert_self c.items k _
    · split <;> omega

/-- Witness for C10 at a concrete cache holding an entry whose loaded
expiration is negative. -/
theorem negative_expiration_get_sweep_disagree_witness :
    lookup (((⟨0, 0, [("a", (⟨7, -5⟩ : Item Nat))]⟩ : Cache Nat
      ).DeleteExpired 10).items) "a" = some ⟨7, -5⟩ :=
  (negative_expiration_get_sweep_disagree
    (⟨0, 0, [("a", ⟨7, -5⟩)]⟩ : Cache Nat) "a" ⟨7, -5⟩ 10
    rfl (by decide) (by decide)).2.1

end Gocache
